import Mathlib

/-!
Verification of the bevy-rectray layout / cursor-event library against its
natural-language specification.  The Rust source is shallowly embedded:
`f32` values are modelled as rationals (all arithmetic appearing in the
verified claims is addition and multiplication on small exact values),
fallible operations return `Except`, and the per-frame cursor system is a
pure function from its inputs to the new `CursorState` plus the list of
component insertions it performs.
-/

namespace Rectray

/-- 2D vector, embedding `bevy::math::Vec2` (components as exact rationals). -/
structure Vec2 where
  x : ℚ
  y : ℚ
deriving DecidableEq, Repr

/-- Embeds `SizeUnit` from `src/core/scaling.rs`. -/
inductive SizeUnit where
  | Pixels
  | Em
  | Rem
  | Percent
  | MarginPx
  | MarginEm
  | MarginRem
deriving DecidableEq, Repr

/-- Embeds `SizeUnit::as_pixels` from `src/core/scaling.rs` (lines 72-83). -/
def SizeUnit.as_pixels (u : SizeUnit) (value parent em rem : ℚ) : ℚ :=
  match u with
  | .Pixels => value
  | .Em => value * em
  | .Rem => value * rem
  | .Percent => value * parent
  | .MarginPx => parent + value
  | .MarginEm => parent + value * em
  | .MarginRem => parent + value * rem

/-- Embeds `Size` from `src/core/scaling.rs`: a `(unit, value)` pair. -/
structure Size where
  unit : SizeUnit
  value : ℚ
deriving DecidableEq, Repr

/-- Embeds `Size::as_pixels`. -/
def Size.as_pixels (s : Size) (parent em rem : ℚ) : ℚ :=
  s.unit.as_pixels s.value parent em rem

/-- Embeds `Size2` from `src/core/scaling.rs`: per-axis units plus a raw `Vec2`. -/
structure Size2 where
  x : SizeUnit
  y : SizeUnit
  raw : Vec2
deriving DecidableEq, Repr

/-- Embeds `Size2::pixels`. -/
def Size2.pixels (x y : ℚ) : Size2 :=
  { x := .Pixels, y := .Pixels, raw := ⟨x, y⟩ }

/-- Embeds `Size2::em`. -/
def Size2.em (x y : ℚ) : Size2 :=
  { x := .Em, y := .Em, raw := ⟨x, y⟩ }

/-- Embeds `Size2::rem`. -/
def Size2.rem (x y : ℚ) : Size2 :=
  { x := .Rem, y := .Rem, raw := ⟨x, y⟩ }

/-- Embeds `Size2::percent`: stores the raw values with unit `Percent`
(no rescaling; `Size2::FULL` is `Percent` with raw `1.0`). -/
def Size2.percent (x y : ℚ) : Size2 :=
  { x := .Percent, y := .Percent, raw := ⟨x, y⟩ }

/-- Embeds `Size2::FULL`. -/
def Size2.FULL : Size2 :=
  { x := .Percent, y := .Percent, raw := ⟨1, 1⟩ }

/-- Embeds `Size2::as_pixels` (lines 188-195 of `src/core/scaling.rs`):
each axis resolved independently via `SizeUnit::as_pixels`. -/
def Size2.as_pixels (s : Size2) (parent : Vec2) (em rem : ℚ) : Vec2 :=
  ⟨s.x.as_pixels s.raw.x parent.x em rem,
   s.y.as_pixels s.raw.y parent.y em rem⟩

/-- Embeds `DimensionType` (variants as used throughout the source:
`Copied`, `Dynamic`, `Owned(Size2)` — see `src/anim/assoc.rs` lines 81-87). -/
inductive DimensionType where
  | Copied
  | Dynamic
  | Owned (v : Size2)
deriving DecidableEq, Repr

/-- Embeds the `Dimension` component: the field consulted by the
interpolation association is its `dimension : DimensionType`. -/
structure Dimension where
  dimension : DimensionType
deriving DecidableEq, Repr

/-- Embeds `<(Dimension, Dimension) as InterpolateAssociation>::get` from
`src/anim/assoc.rs` (lines 80-88).  The Rust function panics on the
`Copied` and `Dynamic` variants; a panic is modelled as `Except.error`
carrying the panic message. -/
def dimensionAssocGet (component : Dimension) : Except String Vec2 :=
  match component.dimension with
  | .Copied => .error "Cannot interpolate `copied` dimension."
  | .Dynamic => .error "Cannot interpolate `dynamic` dimension."
  | .Owned v => .ok v.raw

/-- Type identity key of a signal marker type (`TypeId` in the source). -/
abbrev TypeId := Nat

/-- Embeds `Signal<Object>`: the slot a sender writes into.  Only the
stored payload matters for the claims; the payload is modelled as `Nat`. -/
structure Signal where
  stored : Option Nat
deriving DecidableEq, Repr

/-- Embeds `Signal::write` (store a new value in the slot). -/
def Signal.write (_ : Signal) (item : Nat) : Signal :=
  { stored := some item }

/-- Embeds `Signal::broadcast` (store a new value, not pollable by the
same sender; the stored payload is the same). -/
def Signal.broadcastWrite (_ : Signal) (item : Nat) : Signal :=
  { stored := some item }

/-- Association-list lookup, embedding `HashMap::get` on a `TypeId` key. -/
def slotLookup (t : TypeId) : List (TypeId × Signal) → Option Signal
  | [] => none
  | (k, v) :: rest => if k = t then some v else slotLookup t rest

/-- Update the slot stored under key `t`, leaving other entries unchanged. -/
def slotUpdate (t : TypeId) (f : Signal → Signal) :
    List (TypeId × Signal) → List (TypeId × Signal)
  | [] => []
  | (k, v) :: rest =>
    if k = t then (k, f v) :: rest else (k, v) :: slotUpdate t f rest

/-- Embeds the `Signals` component from `defer/src/signals.rs`:
type-keyed sender and receiver maps (adaptors omitted — not consulted by
the verified claims). -/
structure Signals where
  senders : List (TypeId × Signal)
  receivers : List (TypeId × Signal)
deriving DecidableEq, Repr

/-- Embeds `Signals::send` (lines 183-188): write through the sender
registered for `t` if one exists, otherwise do nothing. -/
def Signals.send (s : Signals) (t : TypeId) (item : Nat) : Signals :=
  match slotLookup t s.senders with
  | some _ => { s with senders := slotUpdate t (fun sig => sig.write item) s.senders }
  | none => s

/-- Embeds `Signals::broadcast` (lines 190-195). -/
def Signals.broadcast (s : Signals) (t : TypeId) (item : Nat) : Signals :=
  match slotLookup t s.senders with
  | some _ => { s with senders := slotUpdate t (fun sig => sig.broadcastWrite item) s.senders }
  | none => s

/-- Embeds `Signals::borrow_sender`. -/
def Signals.borrow_sender (s : Signals) (t : TypeId) : Option Signal :=
  slotLookup t s.senders

/-- Embeds `<SigSend<T> as AsyncSystemParam>::from_async_context`
(lines 292-304): `borrow_sender(..).unwrap_or_else(|| panic!(..))`,
the panic modelled as `Except.error` with the panic message. -/
def sigSendFromAsyncContext (s : Signals) (t : TypeId) : Except String Signal :=
  match s.borrow_sender t with
  | some sig => .ok sig
  | none => .error "Signal sender of type <T> missing"

/-- Event flag bitset.  Embeds the `EventFlags` bitflags type used by
`aoui/src/events/systems.rs` (the bitflags declaration itself is not under
the sources provided; the bit values are arbitrary distinct bits, which is
all the dispatch code relies on). -/
abbrev EventFlags := Nat

namespace EventFlags

def Hover : EventFlags := 1
def LeftDown : EventFlags := 2
def LeftPressed : EventFlags := 4
def LeftClick : EventFlags := 8
def LeftDrag : EventFlags := 16
def DoubleClick : EventFlags := 32
def RightDown : EventFlags := 64
def RightPressed : EventFlags := 128
def RightClick : EventFlags := 256
def RightDrag : EventFlags := 512
def MidDown : EventFlags := 1024
def MidPressed : EventFlags := 2048
def MidClick : EventFlags := 4096
def MidDrag : EventFlags := 8192
def DragEnd : EventFlags := 16384
def Drop : EventFlags := 32768
def ClickOutside : EventFlags := 65536

/-- `EventFlags::intersects`: some bit is shared. -/
def intersects (a b : EventFlags) : Bool := (a &&& b) != 0

/-- `EventFlags::contains`: every bit of `b` is in `a`. -/
def contains (a b : EventFlags) : Bool := (a &&& b) == b

end EventFlags

/-- Mouse button, embedding `bevy::input::mouse::MouseButton`. -/
inductive MouseButton where
  | left
  | right
  | middle
  | other (n : Nat)
deriving DecidableEq, BEq, Repr

/-- Modelled from the spec: a node's resolved hitbox, an axis-aligned
world-space region queried by `CursorDetection::contains` (the hitbox code
is not under the sources provided; the spec only requires a containment
test against the pointer). -/
structure Hitbox where
  lo : Vec2
  hi : Vec2
deriving DecidableEq, Repr

/-- Pointwise containment test for the modelled hitbox. -/
def Hitbox.contains (h : Hitbox) (p : Vec2) : Bool :=
  decide (h.lo.x ≤ p.x) && decide (p.x ≤ h.hi.x) &&
  decide (h.lo.y ≤ p.y) && decide (p.y ≤ h.hi.y)

/-- One row of the cursor system's node query
`Query<(Entity, &EventFlags, CursorDetection, ActiveDetection)>`:
entity id, event flags, hitbox, z value and active status. -/
structure CNode where
  entity : Nat
  flags : EventFlags
  hitbox : Hitbox
  z : ℚ
  active : Bool
deriving DecidableEq, Repr

/-- Total-order comparison on rationals, embedding `f32::total_cmp`
(exact values only — no NaN arises in the embedding, and on numeric values
`total_cmp` agrees with the numeric order). -/
def ratCmp (a b : ℚ) : Ordering :=
  if a < b then .lt else if b < a then .gt else .eq

/-- Modelled from the spec: `CursorDetection::compare` (code not under the
sources provided) — the NaN-safe total ordering on the nodes' z values
used as the `max_by` comparator, same ordering as the
`a.z().total_cmp(&b.z())` call the drop branch spells out inline. -/
def CNode.compare (a b : CNode) : Ordering := ratCmp a.z b.z

/-- One step of Rust `Iterator::max_by`: keep the accumulated maximum
only when it compares strictly greater, so ties go to the later element. -/
def maxStep {α : Type} (cmp : α → α → Ordering) (acc : Option α) (x : α) : Option α :=
  match acc with
  | none => some x
  | some m => if cmp m x = .gt then some m else some x

/-- Rust `Iterator::max_by`: the maximum under a comparator, returning the
last of several equally-maximal elements, `none` on an empty list. -/
def listMaxBy {α : Type} (cmp : α → α → Ordering) (l : List α) : Option α :=
  l.foldl (maxStep cmp) none

/-- The `iter` closure at the top of `mouse_button_input`: active nodes
whose flags intersect the queried flags. -/
def iterFlags (nodes : List CNode) (f : EventFlags) : List CNode :=
  nodes.filter (fun n => n.active && EventFlags.intersects n.flags f)

/-- The candidate-selection pipeline used at every dispatch site of
`mouse_button_input`: `iter(flags).filter(keep).max_by(compare)`. -/
def pickBy (nodes : List CNode) (f : EventFlags) (keep : CNode → Bool) : Option CNode :=
  listMaxBy CNode.compare ((iterFlags nodes f).filter keep)

/-- Embeds the `CursorState` resource (declaration not under the sources
provided; fields and their meaning are fixed by their uses in
`mouse_button_input`).  The 2-slot rolling down-time buffer stores
`Option ℚ`: `none` models a cleared slot (`-inf` timestamp), for which the
double-click window test is always false. -/
structure CursorState where
  cursorPos : Vec2
  downPos : Vec2
  dragging : Bool
  dragButton : MouseButton
  dragTarget : Option Nat
  dragDblClick : Bool
  lastLmbDownTime : Option ℚ × Option ℚ
  focused : Option Nat
  caught : Bool
  blocked : Bool
deriving DecidableEq, Repr

/-- Modelled from the spec: `CursorState::clear_dbl_click` resets the
2-slot rolling timestamp buffer so a third click cannot re-trigger a
double click. -/
def CursorState.clearDblClick (s : CursorState) : CursorState :=
  { s with lastLmbDownTime := (none, none) }

/-- The double-click window test
`time.elapsed_seconds() - state.last_lmb_down_time[0] <= double_click.get()`;
a cleared slot (`none`) never passes. -/
def dblCheck (now : ℚ) (slot : Option ℚ) (threshold : ℚ) : Bool :=
  match slot with
  | none => false
  | some t => decide (now - t ≤ threshold)

/-- Per-frame button snapshot (`Res<Input<MouseButton>>`). -/
structure Buttons where
  pressed : MouseButton → Bool
  justPressed : MouseButton → Bool
  justReleased : MouseButton → Bool

/-- A component insertion performed by the cursor system:
`CursorAction`, `CursorFocus` or `CursorClickOutside` on an entity. -/
inductive Eff where
  | action (entity : Nat) (f : EventFlags)
  | focus (entity : Nat) (f : EventFlags)
  | clickOutside (entity : Nat)
deriving DecidableEq, Repr

/-- The drag-continuation focus flag chosen per drag button
(`MouseButton::Other(_)` falls back to `LeftDrag`, as in the source). -/
def dragFocusFlag : MouseButton → EventFlags
  | .left => EventFlags.LeftDrag
  | .right => EventFlags.RightDrag
  | .middle => EventFlags.MidDrag
  | .other _ => EventFlags.LeftDrag

/-- The `ClickOutside` sweep: every active `ClickOutside`-flagged node
whose hitbox does not contain the release point — excluding, at the
drag-end site, the dragged entity — receives `CursorClickOutside`. -/
def clickOutsideEffs (nodes : List CNode) (pos : Vec2) (excl : Option Nat) : List Eff :=
  ((iterFlags nodes EventFlags.ClickOutside).filter
    (fun n => (match excl with | some e => n.entity != e | none => true)
      && !(n.hitbox.contains pos))).map
    (fun n => Eff.clickOutside n.entity)

/-- Modelled from the spec: `CursorState::drag_target(&mut commands)` —
the drag target entity, provided it still exists. -/
def dragTargetOf (s : CursorState) (entityExists : Nat → Bool) : Option Nat :=
  s.dragTarget.bind (fun e => if entityExists e then some e else none)

/-- The `state.dragging` branch of `mouse_button_input`
(`aoui/src/events/systems.rs` lines 80-125).  `state` already has
`caught := false`, `focused := none` and the updated cursor position. -/
def dragBranch (state : CursorState) (now threshold : ℚ) (buttons : Buttons)
    (mousePos : Vec2) (entityExists : Nat → Bool) (nodes : List CNode) :
    CursorState × List Eff :=
  let state := { state with caught := true }
  match dragTargetOf state entityExists with
  | some e =>
    let state := { state with focused := some e }
    if buttons.pressed state.dragButton then
      let extraDown : List Eff :=
        if state.dragButton != MouseButton.left && buttons.justPressed MouseButton.left then
          [.action e EventFlags.LeftDown]
        else if state.dragButton != MouseButton.right && buttons.justPressed MouseButton.right then
          [.action e EventFlags.RightDown]
        else if state.dragButton != MouseButton.middle && buttons.justPressed MouseButton.middle then
          [.action e EventFlags.MidDown]
        else []
      (state, extraDown ++ [.focus e (dragFocusFlag state.dragButton)])
    else
      let stEffs :=
        if state.dragDblClick && dblCheck now state.lastLmbDownTime.1 threshold then
          (state.clearDblClick,
           [Eff.action e EventFlags.DoubleClick, Eff.focus e EventFlags.Hover])
        else
          (state, [Eff.action e EventFlags.DragEnd, Eff.focus e EventFlags.Hover])
      let state := { stEffs.1 with dragging := false, dragTarget := none }
      let dropEffs : List Eff :=
        match pickBy nodes EventFlags.Drop (fun n => n.hitbox.contains mousePos) with
        | some n => [.action n.entity EventFlags.Drop]
        | none => []
      (state, stEffs.2 ++ dropEffs ++ clickOutsideEffs nodes mousePos (some e))
  | none =>
    if buttons.pressed state.dragButton then (state, [])
    else
      let state := { state with dragging := false, dragTarget := none }
      (state, clickOutsideEffs nodes mousePos none)

/-- The `buttons.pressed(MouseButton::Left)` branch (lines 126-155):
roll the double-click buffer on the down edge, select the top candidate
among `LeftDrag|LeftClick` nodes under the pointer, promote to dragging
when the node is drag-eligible. -/
def leftPressBranch (state : CursorState) (now : ℚ) (buttons : Buttons)
    (mousePos : Vec2) (nodes : List CNode) : CursorState × List Eff :=
  let state :=
    if buttons.justPressed MouseButton.left then
      { state with
          downPos := mousePos
          lastLmbDownTime := (state.lastLmbDownTime.2, some now) }
    else state
  match pickBy nodes (EventFlags.LeftDrag ||| EventFlags.LeftClick)
      (fun n => n.hitbox.contains mousePos) with
  | some n =>
    let state := { state with caught := true }
    if buttons.justPressed MouseButton.left then
      if EventFlags.contains n.flags EventFlags.LeftDrag then
        ({ state with
            dragTarget := some n.entity
            dragging := true
            dragButton := MouseButton.left
            dragDblClick := EventFlags.contains n.flags EventFlags.DoubleClick
            focused := some n.entity },
         [.action n.entity EventFlags.LeftDown, .focus n.entity EventFlags.LeftDrag])
      else
        ({ state with focused := some n.entity },
         [.action n.entity EventFlags.LeftDown, .focus n.entity EventFlags.LeftPressed])
    else if EventFlags.contains n.flags EventFlags.LeftClick then
      ({ state with focused := some n.entity }, [.focus n.entity EventFlags.LeftPressed])
    else (state, [])
  | none => (state, [])

/-- The `buttons.pressed(MouseButton::Right)` branch (lines 156-182).
Note the source sets `drag_target`/`drag_button` but not `dragging`. -/
def rightPressBranch (state : CursorState) (buttons : Buttons)
    (mousePos : Vec2) (nodes : List CNode) : CursorState × List Eff :=
  let state :=
    if buttons.justPressed MouseButton.right then { state with downPos := mousePos }
    else state
  match pickBy nodes (EventFlags.RightDrag ||| EventFlags.RightClick)
      (fun n => n.hitbox.contains mousePos) with
  | some n =>
    let state := { state with caught := true }
    if buttons.justPressed MouseButton.right then
      if EventFlags.contains n.flags EventFlags.RightDrag then
        ({ state with
            dragTarget := some n.entity
            dragButton := MouseButton.right
            dragDblClick := false
            focused := some n.entity },
         [.action n.entity EventFlags.RightDown, .focus n.entity EventFlags.RightDrag])
      else
        ({ state with focused := some n.entity },
         [.action n.entity EventFlags.RightDown, .focus n.entity EventFlags.RightPressed])
    else if EventFlags.contains n.flags EventFlags.RightClick then
      ({ state with focused := some n.entity }, [.focus n.entity EventFlags.RightPressed])
    else (state, [])
  | none => (state, [])

/-- The `buttons.pressed(MouseButton::Middle)` branch (lines 183-210); as
in the source, `down_pos` is set again inside the down-edge candidate case
and `dragging` is not set. -/
def midPressBranch (state : CursorState) (buttons : Buttons)
    (mousePos : Vec2) (nodes : List CNode) : CursorState × List Eff :=
  let state :=
    if buttons.justPressed MouseButton.middle then { state with downPos := mousePos }
    else state
  match pickBy nodes (EventFlags.MidDrag ||| EventFlags.MidClick)
      (fun n => n.hitbox.contains mousePos) with
  | some n =>
    let state := { state with caught := true }
    if buttons.justPressed MouseButton.middle then
      let state := { state with downPos := mousePos }
      if EventFlags.contains n.flags EventFlags.MidDrag then
        ({ state with
            dragTarget := some n.entity
            dragButton := MouseButton.middle
            dragDblClick := false
            focused := some n.entity },
         [.action n.entity EventFlags.MidDown, .focus n.entity EventFlags.MidDrag])
      else
        ({ state with focused := some n.entity },
         [.action n.entity EventFlags.MidDown, .focus n.entity EventFlags.MidPressed])
    else if EventFlags.contains n.flags EventFlags.MidClick then
      ({ state with focused := some n.entity }, [.focus n.entity EventFlags.MidPressed])
    else (state, [])
  | none => (state, [])

/-- The final branch (lines 211-260): button-release click /
double-click / click-outside dispatch followed by hover resolution. -/
def releaseBranch (state : CursorState) (now threshold : ℚ) (buttons : Buttons)
    (mousePos : Vec2) (nodes : List CNode) : CursorState × List Eff :=
  let stEffs :=
    if buttons.justReleased MouseButton.left then
      let down := state.downPos
      let actPart :=
        match pickBy nodes EventFlags.LeftClick
            (fun n => n.hitbox.contains mousePos && n.hitbox.contains down) with
        | some n =>
          if EventFlags.contains n.flags EventFlags.DoubleClick &&
              dblCheck now state.lastLmbDownTime.1 threshold then
            ({ state.clearDblClick with caught := true },
             [Eff.action n.entity EventFlags.DoubleClick])
          else
            ({ state with caught := true }, [Eff.action n.entity EventFlags.LeftClick])
        | none => (state, ([] : List Eff))
      (actPart.1, actPart.2 ++ clickOutsideEffs nodes mousePos none)
    else if buttons.justReleased MouseButton.right then
      let down := state.downPos
      let actPart :=
        match pickBy nodes EventFlags.RightClick
            (fun n => n.hitbox.contains mousePos && n.hitbox.contains down) with
        | some n => ({ state with caught := true }, [Eff.action n.entity EventFlags.RightClick])
        | none => (state, ([] : List Eff))
      (actPart.1, actPart.2 ++ clickOutsideEffs nodes mousePos none)
    else if buttons.justReleased MouseButton.middle then
      let down := state.downPos
      let actPart :=
        match pickBy nodes EventFlags.MidClick
            (fun n => n.hitbox.contains mousePos && n.hitbox.contains down) with
        | some n => ({ state with caught := true }, [Eff.action n.entity EventFlags.MidClick])
        | none => (state, ([] : List Eff))
      (actPart.1, actPart.2 ++ clickOutsideEffs nodes mousePos none)
    else (state, ([] : List Eff))
  let state := stEffs.1
  if state.focused.isNone then
    match pickBy nodes EventFlags.Hover (fun n => n.hitbox.contains mousePos) with
    | some n =>
      ({ state with focused := some n.entity, caught := true },
       stEffs.2 ++ [Eff.focus n.entity EventFlags.Hover])
    | none => (state, stEffs.2)
  else (state, stEffs.2)

/-- Embeds `mouse_button_input` from `aoui/src/events/systems.rs` as a
pure per-frame transition: inputs are the previous `CursorState`, elapsed
seconds, the double-click threshold, the button snapshot, the world-space
pointer position (if the window has one), entity liveness and the node
query; outputs are the new `CursorState` and the list of component
insertions. -/
def mouseButtonInput (state0 : CursorState) (now threshold : ℚ) (buttons : Buttons)
    (mousePosOpt : Option Vec2) (entityExists : Nat → Bool) (nodes : List CNode) :
    CursorState × List Eff :=
  let state := { state0 with caught := false, focused := none }
  if state.blocked then (state, [])
  else
    match mousePosOpt with
    | none => (state, [])
    | some mousePos =>
      let state := { state with cursorPos := mousePos }
      if state.dragging then
        dragBranch state now threshold buttons mousePos entityExists nodes
      else if buttons.pressed MouseButton.left then
        leftPressBranch state now buttons mousePos nodes
      else if buttons.pressed MouseButton.right then
        rightPressBranch state buttons mousePos nodes
      else if buttons.pressed MouseButton.middle then
        midPressBranch state buttons mousePos nodes
      else
        releaseBranch state now threshold buttons mousePos nodes

/-! Concrete sample values used by the witness theorems. -/

/-- A hitbox around the origin. -/
def sampleHitbox : Hitbox := ⟨⟨-10, -10⟩, ⟨10, 10⟩⟩

/-- A hitbox far from the origin. -/
def farHitbox : Hitbox := ⟨⟨100, 100⟩, ⟨120, 120⟩⟩

/-- A hover-only node at z = 1. -/
def nodeA : CNode :=
  { entity := 1, flags := EventFlags.Hover, hitbox := sampleHitbox, z := 1, active := true }

/-- A hover node at z = 2, overlapping `nodeA`. -/
def nodeB : CNode :=
  { entity := 2, flags := EventFlags.Hover ||| EventFlags.LeftClick,
    hitbox := sampleHitbox, z := 2, active := true }

/-- A `ClickOutside`-flagged node away from the origin. -/
def outsideNode : CNode :=
  { entity := 3, flags := EventFlags.ClickOutside, hitbox := farHitbox, z := 0, active := true }

/-- A double-click-eligible clickable node at the origin. -/
def clickNode : CNode :=
  { entity := 4, flags := EventFlags.LeftClick ||| EventFlags.DoubleClick,
    hitbox := sampleHitbox, z := 1, active := true }

/-- No buttons pressed, just pressed or just released. -/
def noButtons : Buttons := ⟨fun _ => false, fun _ => false, fun _ => false⟩

/-- Left button held (not an edge). -/
def leftHeldButtons : Buttons := ⟨fun b => b == .left, fun _ => false, fun _ => false⟩

/-- Left button released this frame. -/
def leftReleasedButtons : Buttons := ⟨fun _ => false, fun _ => false, fun b => b == .left⟩

/-- A quiescent cursor state. -/
def baseState : CursorState :=
  { cursorPos := ⟨0, 0⟩, downPos := ⟨0, 0⟩, dragging := false,
    dragButton := .left, dragTarget := none, dragDblClick := false,
    lastLmbDownTime := (none, none), focused := none, caught := false,
    blocked := false }

/-- A blocked state with stale focus. -/
def blockedState : CursorState :=
  { baseState with blocked := true, focused := some 5, caught := true }

/-- A state mid-drag on entity 7. -/
def dragState : CursorState :=
  { baseState with dragging := true, dragTarget := some 7 }

/-- A state whose previous left-down timestamp (buffer slot 0) is 1. -/
def releaseState : CursorState :=
  { baseState with lastLmbDownTime := (some 1, some 2) }

/-- All entities exist. -/
def allExist : Nat → Bool := fun _ => true

/-- C1: `SizeUnit::as_pixels` (and hence `Size::as_pixels`) is a total
function matching the documented per-unit formula exactly: `Pixels` yields
the value, `Em` yields `value*em`, `Rem` yields `value*rem`, `Percent`
yields `value*parent`, `MarginPx` yields `parent+value`, `MarginEm` yields
`parent+value*em`, `MarginRem` yields `parent+value*rem`; there is no error
case (the embedding is a total function into ℚ). -/
theorem sizeUnit_as_pixels_formulas (value parent em rem : ℚ) :
    SizeUnit.Pixels.as_pixels value parent em rem = value ∧
    SizeUnit.Em.as_pixels value parent em rem = value * em ∧
    SizeUnit.Rem.as_pixels value parent em rem = value * rem ∧
    SizeUnit.Percent.as_pixels value parent em rem = value * parent ∧
    SizeUnit.MarginPx.as_pixels value parent em rem = parent + value ∧
    SizeUnit.MarginEm.as_pixels value parent em rem = parent + value * em ∧
    SizeUnit.MarginRem.as_pixels value parent em rem = parent + value * rem ∧
    ∀ u : SizeUnit, (Size.mk u value).as_pixels parent em rem
      = u.as_pixels value parent em rem := by
  refine ⟨rfl, rfl, rfl, rfl, rfl, rfl, rfl, fun u => rfl⟩

/-- C2: `Size2::as_pixels` resolves the two axes independently: the x
component of the result equals `SizeUnit::as_pixels` of the x unit, the raw
x value and `parent.x` (plus em/rem) and hence never depends on `parent.y`,
and symmetrically for y. -/
theorem size2_as_pixels_axes_independent (s : Size2) (p q : Vec2) (em rem : ℚ) :
    (p.x = q.x → (s.as_pixels p em rem).x = (s.as_pixels q em rem).x) ∧
    (p.y = q.y → (s.as_pixels p em rem).y = (s.as_pixels q em rem).y) ∧
    (s.as_pixels p em rem).x = s.x.as_pixels s.raw.x p.x em rem ∧
    (s.as_pixels p em rem).y = s.y.as_pixels s.raw.y p.y em rem := by
  refine ⟨fun h => ?_, fun h => ?_, rfl, rfl⟩
  · simp [Size2.as_pixels, h]
  · simp [Size2.as_pixels, h]

/-- Witness for C2 at a concrete input: changing `parent.y` from 100 to 999
does not change the resolved x component. -/
theorem size2_as_pixels_axes_independent_witness :
    ((Size2.percent (1/2) (1/2)).as_pixels ⟨200, 100⟩ 16 16).x
      = ((Size2.percent (1/2) (1/2)).as_pixels ⟨200, 999⟩ 16 16).x :=
  (size2_as_pixels_axes_independent (Size2.percent (1/2) (1/2))
    ⟨200, 100⟩ ⟨200, 999⟩ 16 16).1 rfl

/-- C3 counterexample: `Size2::percent(50,50)` resolved inside a 200×100
parent with em=16, rem=16 gives 10000×5000, not 100×50 — `Percent` raw
values are fractions of the parent (`Size2::FULL` is `Percent 1.0`), not
numbers out of 100. -/
theorem percent_50_50_not_100_50 :
    (Size2.percent 50 50).as_pixels ⟨200, 100⟩ 16 16 ≠ (⟨100, 50⟩ : Vec2) := by
  simp only [Size2.percent, Size2.as_pixels, SizeUnit.as_pixels, ne_eq,
    Vec2.mk.injEq, not_and]
  intro h
  norm_num at h

/-- C3 amended: `Size2::percent(0.5, 0.5)` (50% as a fraction) resolved
inside a 200×100 parent with em=16, rem=16 gives exactly 100×50. -/
theorem percent_half_resolves_100_50 :
    (Size2.percent (1/2) (1/2)).as_pixels ⟨200, 100⟩ 16 16 = (⟨100, 50⟩ : Vec2) := by
  simp only [Size2.percent, Size2.as_pixels, SizeUnit.as_pixels, Vec2.mk.injEq]
  norm_num

/-- C4: the interpolation association `get` for `Dimension` is a fatal
error (panic with a descriptive message) on the `Copied` and `Dynamic`
variants and returns the owned raw value only for `Owned`. -/
theorem dimensionAssocGet_panics_on_non_owned (d : Dimension) :
    (d.dimension = DimensionType.Copied →
      dimensionAssocGet d = .error "Cannot interpolate `copied` dimension.") ∧
    (d.dimension = DimensionType.Dynamic →
      dimensionAssocGet d = .error "Cannot interpolate `dynamic` dimension.") ∧
    (∀ v : Size2, d.dimension = DimensionType.Owned v →
      dimensionAssocGet d = .ok v.raw) := by
  refine ⟨fun h => ?_, fun h => ?_, fun v h => ?_⟩ <;>
    simp [dimensionAssocGet, h]

/-- Witness for C4 at concrete inputs: a `Copied` dimension errors and an
`Owned` dimension returns its raw value. -/
theorem dimensionAssocGet_panics_on_non_owned_witness :
    dimensionAssocGet ⟨.Copied⟩ = .error "Cannot interpolate `copied` dimension." ∧
    dimensionAssocGet ⟨.Owned (Size2.pixels 3 4)⟩ = .ok ⟨3, 4⟩ :=
  ⟨(dimensionAssocGet_panics_on_non_owned ⟨.Copied⟩).1 rfl,
   (dimensionAssocGet_panics_on_non_owned ⟨.Owned (Size2.pixels 3 4)⟩).2.2
     (Size2.pixels 3 4) rfl⟩

/-- C10: `Signals::send` / `Signals::broadcast` with no registered sender
for the signal type are silent no-ops — total functions returning the
`Signals` value unchanged (no panic, no write) — while constructing the
async `SigSend` system param for the same missing signal panics. -/
theorem signals_send_missing_sender_noop (s : Signals) (t : TypeId) (item : Nat)
    (h : slotLookup t s.senders = none) :
    s.send t item = s ∧
    s.broadcast t item = s ∧
    sigSendFromAsyncContext s t = .error "Signal sender of type <T> missing" := by
  refine ⟨?_, ?_, ?_⟩ <;>
    simp [Signals.send, Signals.broadcast, sigSendFromAsyncContext,
      Signals.borrow_sender, h]

/-- Witness for C10: a `Signals` value with a sender registered only for
type id 1 is left unchanged by `send`/`broadcast` for type id 2. -/
theorem signals_send_missing_sender_noop_witness :
    Signals.send ⟨[(1, ⟨none⟩)], []⟩ 2 7 = ⟨[(1, ⟨none⟩)], []⟩ ∧
    Signals.broadcast ⟨[(1, ⟨none⟩)], []⟩ 2 7 = ⟨[(1, ⟨none⟩)], []⟩ ∧
    sigSendFromAsyncContext ⟨[(1, ⟨none⟩)], []⟩ 2
      = .error "Signal sender of type <T> missing" :=
  signals_send_missing_sender_noop ⟨[(1, ⟨none⟩)], []⟩ 2 7 (by decide)

/-- `ratCmp` returns `gt` exactly when the right argument is smaller. -/
theorem ratCmp_gt_iff (a b : ℚ) : ratCmp a b = .gt ↔ b < a := by
  rcases lt_trichotomy a b with h | h | h
  · simp [ratCmp, h, asymm h]
  · subst h; simp [ratCmp, lt_irrefl]
  · simp [ratCmp, asymm h, h]

/-- A `maxStep` fold that ends in `some x` either found `x` in the list or
started with it. -/
theorem foldl_maxStep_mem {α : Type} (cmp : α → α → Ordering) :
    ∀ (l : List α) (acc : Option α) (x : α),
      List.foldl (maxStep cmp) acc l = some x → x ∈ l ∨ acc = some x := by
  intro l
  induction l with
  | nil => intro acc x h; exact Or.inr h
  | cons a t ih =>
    intro acc x h
    rcases ih (maxStep cmp acc a) x h with hmem | hacc
    · exact Or.inl (List.mem_cons_of_mem a hmem)
    · cases acc with
      | none =>
        simp [maxStep] at hacc
        exact Or.inl (by simp [hacc])
      | some m =>
        by_cases hc : cmp m a = .gt
        · simp [maxStep, hc] at hacc
          exact Or.inr (by simp [hacc])
        · simp [maxStep, hc] at hacc
          exact Or.inl (by simp [hacc])

/-- `listMaxBy` returns an element of the list. -/
theorem listMaxBy_mem {α : Type} (cmp : α → α → Ordering) (l : List α) (x : α)
    (h : listMaxBy cmp l = some x) : x ∈ l := by
  rcases foldl_maxStep_mem cmp l none x h with hm | hbad
  · exact hm
  · exact absurd hbad (by simp)

/-- A `maxStep` fold over a list in which `x` is a strict z-maximum
(every other element has strictly smaller z) returns `x`, from any
accumulator that is `x` or strictly below it. -/
theorem foldl_maxStep_strict (x : CNode) :
    ∀ (l : List CNode) (acc : Option CNode),
      (∀ y ∈ l, y = x ∨ y.z < x.z) →
      (x ∈ l ∨ acc = some x) →
      (∀ a, acc = some a → a = x ∨ a.z < x.z) →
      List.foldl (maxStep CNode.compare) acc l = some x := by
  intro l
  induction l with
  | nil =>
    intro acc _ hmem _
    rcases hmem with h | h
    · exact absurd h (List.not_mem_nil x)
    · simpa using h
  | cons a t ih =>
    intro acc hall hmem hacc
    have ha := hall a (List.mem_cons_self a t)
    refine ih (maxStep CNode.compare acc a)
      (fun y hy => hall y (List.mem_cons_of_mem a hy)) ?_ ?_
    · -- membership / accumulator invariant after one step
      rcases hmem with hx | hx
      · rcases List.mem_cons.mp hx with hxa | hxt
        · right
          subst hxa
          cases acc with
          | none => rfl
          | some m =>
            rcases hacc m rfl with hm | hm
            · subst hm
              simp [maxStep, CNode.compare, ratCmp, lt_irrefl]
            · simp [maxStep, if_neg (fun hgt =>
                absurd ((ratCmp_gt_iff _ _).mp hgt) (asymm hm))]
              intro hgt
              exact absurd ((ratCmp_gt_iff _ _).mp hgt) (asymm hm)
        · exact Or.inl hxt
      · right
        cases acc with
        | none => exact absurd hx (by simp)
        | some m =>
          have hmx : m = x := by simpa using hx
          subst hmx
          rcases ha with hax | haz
          · subst hax
            simp [maxStep, CNode.compare, ratCmp, lt_irrefl]
          · have hgt : CNode.compare m a = .gt := (ratCmp_gt_iff m.z a.z).mpr haz
            simp [maxStep, hgt]
    · intro b hb
      cases acc with
      | none =>
        simp [maxStep] at hb
        subst hb
        exact ha
      | some m =>
        by_cases hc : CNode.compare m a = .gt
        · simp [maxStep, hc] at hb
          subst hb
          exact hacc m rfl
        · simp [maxStep, hc] at hb
          subst hb
          exact ha

/-- `pickBy` only returns an active node from the list whose flags
intersect the queried flags and which passes the keep filter. -/
theorem pickBy_mem (nodes : List CNode) (f : EventFlags) (keep : CNode → Bool)
    (n : CNode) (h : pickBy nodes f keep = some n) :
    n ∈ nodes ∧ n.active = true ∧ EventFlags.intersects n.flags f = true ∧
      keep n = true := by
  have hm := listMaxBy_mem _ _ _ h
  simp only [iterFlags, List.mem_filter, Bool.and_eq_true] at hm
  tauto

/-- `pickBy` returns the strict z-maximum among the matching candidates. -/
theorem pickBy_strict_max (nodes : List CNode) (f : EventFlags) (keep : CNode → Bool)
    (n : CNode) (hmem : n ∈ nodes) (hact : n.active = true)
    (hflag : EventFlags.intersects n.flags f = true) (hkeep : keep n = true)
    (hmax : ∀ m ∈ nodes, m.active = true → EventFlags.intersects m.flags f = true →
      keep m = true → m ≠ n → m.z < n.z) :
    pickBy nodes f keep = some n := by
  unfold pickBy listMaxBy
  apply foldl_maxStep_strict
  · intro y hy
    simp only [List.mem_filter, iterFlags, Bool.and_eq_true] at hy
    obtain ⟨⟨hyn, hya, hyf⟩, hyk⟩ := hy
    by_cases h : y = n
    · exact Or.inl h
    · exact Or.inr (hmax y hyn hya hyf hyk h)
  · left
    simp only [List.mem_filter, iterFlags, Bool.and_eq_true]
    exact ⟨⟨hmem, hact, hflag⟩, hkeep⟩
  · intro a ha
    exact absurd ha (by simp)

/-- C5: at every dispatch site of `mouse_button_input` the candidate
selection — active nodes whose hitbox contains the pointer and whose flags
intersect the flags of the action being resolved — picks the node with
the highest z under the total order on z, independently of the iteration
order of the query (any permutation of the node list selects the same
node). -/
theorem cursor_priority_highest_z (nodes : List CNode) (f : EventFlags) (pos : Vec2)
    (n : CNode) (hmem : n ∈ nodes) (hact : n.active = true)
    (hflag : EventFlags.intersects n.flags f = true)
    (hhit : n.hitbox.contains pos = true)
    (hmax : ∀ m ∈ nodes, m.active = true → EventFlags.intersects m.flags f = true →
      m.hitbox.contains pos = true → m ≠ n → m.z < n.z) :
    pickBy nodes f (fun m => m.hitbox.contains pos) = some n ∧
    ∀ nodes' : List CNode, nodes.Perm nodes' →
      pickBy nodes' f (fun m => m.hitbox.contains pos) = some n := by
  constructor
  · exact pickBy_strict_max _ _ _ _ hmem hact hflag hhit hmax
  · intro nodes' hp
    exact pickBy_strict_max _ _ _ _ (hp.mem_iff.mp hmem) hact hflag hhit
      (fun m hm => hmax m (hp.mem_iff.mpr hm))

/-- Witness for C5: among two overlapping hover nodes at z = 1 and z = 2,
both insertion orders select the z = 2 node. -/
theorem cursor_priority_highest_z_witness :
    pickBy [nodeA, nodeB] EventFlags.Hover (fun m => m.hitbox.contains ⟨0, 0⟩)
        = some nodeB ∧
    pickBy [nodeB, nodeA] EventFlags.Hover (fun m => m.hitbox.contains ⟨0, 0⟩)
        = some nodeB := by
  have h := cursor_priority_highest_z [nodeA, nodeB] EventFlags.Hover ⟨0, 0⟩ nodeB
    (by decide) (by decide) (by decide) (by decide) (by decide)
  exact ⟨h.1, h.2 [nodeB, nodeA] (List.Perm.swap nodeB nodeA [])⟩

/-- C9: when `CursorState.blocked` is set, `mouse_button_input`
short-circuits: no component is inserted, `focused` is cleared, `caught`
is false, and every other state field (dragging, drag target, down
position, timing buffer, cursor position) is left unchanged. -/
theorem blocked_short_circuits (state : CursorState) (now threshold : ℚ)
    (buttons : Buttons) (mousePosOpt : Option Vec2) (entityExists : Nat → Bool)
    (nodes : List CNode) (h : state.blocked = true) :
    mouseButtonInput state now threshold buttons mousePosOpt entityExists nodes
      = ({ state with caught := false, focused := none }, []) := by
  simp [mouseButtonInput, h]

/-- Witness for C9: a blocked state with stale focus is returned with only
`caught`/`focused` cleared and no insertions. -/
theorem blocked_short_circuits_witness :
    mouseButtonInput blockedState 1 1 noButtons (some ⟨0, 0⟩) allExist [nodeA]
      = ({ blockedState with caught := false, focused := none }, []) :=
  blocked_short_circuits blockedState 1 1 noButtons (some ⟨0, 0⟩) allExist [nodeA] rfl

/-- C6: while `CursorState.dragging` holds and the drag target still
exists, a frame with the drag button still pressed keeps focus on the drag
target — the new state has `focused = some e`, stays dragging with the
same target, the drag `CursorFocus` is inserted — and the whole frame
result is independent of the node set (no hitbox is consulted); when the
drag button is no longer pressed, the drag ends (dragging cleared, target
cleared). -/
theorem drag_continuation (state : CursorState) (now threshold : ℚ)
    (buttons : Buttons) (pos : Vec2) (entityExists : Nat → Bool) (e : Nat)
    (hb : state.blocked = false) (hd : state.dragging = true)
    (ht : state.dragTarget = some e) (he : entityExists e = true) :
    (buttons.pressed state.dragButton = true →
      ∀ nodes nodes' : List CNode,
        mouseButtonInput state now threshold buttons (some pos) entityExists nodes
          = mouseButtonInput state now threshold buttons (some pos) entityExists nodes' ∧
        (mouseButtonInput state now threshold buttons (some pos) entityExists nodes).1.focused
          = some e ∧
        (mouseButtonInput state now threshold buttons (some pos) entityExists nodes).1.dragging
          = true ∧
        (mouseButtonInput state now threshold buttons (some pos) entityExists nodes).1.dragTarget
          = some e ∧
        Eff.focus e (dragFocusFlag state.dragButton)
          ∈ (mouseButtonInput state now threshold buttons (some pos) entityExists nodes).2) ∧
    (buttons.pressed state.dragButton = false →
      ∀ nodes : List CNode,
        (mouseButtonInput state now threshold buttons (some pos) entityExists nodes).1.dragging
          = false ∧
        (mouseButtonInput state now threshold buttons (some pos) entityExists nodes).1.dragTarget
          = none) := by
  constructor
  · intro hp nodes nodes'
    refine ⟨?_, ?_, ?_, ?_, ?_⟩ <;>
      simp [mouseButtonInput, dragBranch, dragTargetOf, hb, hd, ht, he, hp]
  · intro hp nodes
    constructor <;>
      simp [mouseButtonInput, dragBranch, dragTargetOf, hb, hd, ht, he, hp]

/-- Witness for C6: a frame mid-drag on entity 7 with the left button held
keeps focus on entity 7 and inserts its drag focus, with an empty node
set. -/
theorem drag_continuation_witness :
    (mouseButtonInput dragState 1 1 leftHeldButtons (some ⟨3, 3⟩) allExist []).1.focused
      = some 7 ∧
    Eff.focus 7 (dragFocusFlag MouseButton.left)
      ∈ (mouseButtonInput dragState 1 1 leftHeldButtons (some ⟨3, 3⟩) allExist []).2 :=
  have h := (drag_continuation dragState 1 1 leftHeldButtons ⟨3, 3⟩ allExist 7
    rfl rfl rfl rfl).1 rfl [] []
  ⟨h.2.1, h.2.2.2.2⟩

/-- C7: a left-button release over a `DoubleClick`-eligible candidate
within the double-click threshold of the previous left-down timestamp
(slot 0 of the 2-slot rolling buffer) produces a `DoubleClick` action
instead of the `LeftClick` (plain release) or `DragEnd` (drag release)
action, and clears the timestamp buffer so no later release can pass the
window test; outside the window the ordinary `LeftClick` / `DragEnd`
action is produced instead. -/
theorem double_click_promotion (state : CursorState) (now threshold : ℚ)
    (buttons : Buttons) (pos : Vec2) (entityExists : Nat → Bool)
    (nodes : List CNode) (n : CNode) (e : Nat) (hb : state.blocked = false) :
    (state.dragging = false →
     buttons.pressed MouseButton.left = false →
     buttons.pressed MouseButton.right = false →
     buttons.pressed MouseButton.middle = false →
     buttons.justReleased MouseButton.left = true →
     pickBy nodes EventFlags.LeftClick
       (fun m => m.hitbox.contains pos && m.hitbox.contains state.downPos) = some n →
     EventFlags.contains n.flags EventFlags.DoubleClick = true →
     (dblCheck now state.lastLmbDownTime.1 threshold = true →
       Eff.action n.entity EventFlags.DoubleClick
         ∈ (mouseButtonInput state now threshold buttons (some pos) entityExists nodes).2 ∧
       Eff.action n.entity EventFlags.LeftClick
         ∉ (mouseButtonInput state now threshold buttons (some pos) entityExists nodes).2 ∧
       (mouseButtonInput state now threshold buttons (some pos) entityExists nodes).1.lastLmbDownTime
         = (none, none) ∧
       ∀ t : ℚ, dblCheck t
         (mouseButtonInput state now threshold buttons (some pos) entityExists nodes).1.lastLmbDownTime.1
         threshold = false) ∧
     (dblCheck now state.lastLmbDownTime.1 threshold = false →
       Eff.action n.entity EventFlags.LeftClick
         ∈ (mouseButtonInput state now threshold buttons (some pos) entityExists nodes).2 ∧
       Eff.action n.entity EventFlags.DoubleClick
         ∉ (mouseButtonInput state now threshold buttons (some pos) entityExists nodes).2)) ∧
    (state.dragging = true →
     state.dragTarget = some e →
     entityExists e = true →
     buttons.pressed state.dragButton = false →
     state.dragDblClick = true →
     (dblCheck now state.lastLmbDownTime.1 threshold = true →
       Eff.action e EventFlags.DoubleClick
         ∈ (mouseButtonInput state now threshold buttons (some pos) entityExists nodes).2 ∧
       Eff.action e EventFlags.DragEnd
         ∉ (mouseButtonInput state now threshold buttons (some pos) entityExists nodes).2 ∧
       (mouseButtonInput state now threshold buttons (some pos) entityExists nodes).1.lastLmbDownTime
         = (none, none)) ∧
     (dblCheck now state.lastLmbDownTime.1 threshold = false →
       Eff.action e EventFlags.DragEnd
         ∈ (mouseButtonInput state now threshold buttons (some pos) entityExists nodes).2 ∧
       Eff.action e EventFlags.DoubleClick
         ∉ (mouseButtonInput state now threshold buttons (some pos) entityExists nodes).2)) := by
  have hne1 : EventFlags.LeftClick ≠ EventFlags.DoubleClick := by decide
  have hne2 : EventFlags.DoubleClick ≠ EventFlags.LeftClick := by decide
  have hne3 : EventFlags.DragEnd ≠ EventFlags.DoubleClick := by decide
  have hne4 : EventFlags.DoubleClick ≠ EventFlags.DragEnd := by decide
  have hne5 : EventFlags.Drop ≠ EventFlags.DoubleClick := by decide
  have hne6 : EventFlags.Drop ≠ EventFlags.DragEnd := by decide
  have hne7 : EventFlags.Drop ≠ EventFlags.LeftClick := by decide
  have hne8 : EventFlags.DragEnd ≠ EventFlags.Drop := by decide
  have hne9 : EventFlags.DoubleClick ≠ EventFlags.Drop := by decide
  constructor
  · intro hd hpl hpr hpm hrl hpick hdc
    constructor
    · intro hdbl
      cases hhov : pickBy nodes EventFlags.Hover (fun m => m.hitbox.contains pos) with
      | none =>
        refine ⟨?_, ?_, ?_, fun t => ?_⟩ <;>
          simp [mouseButtonInput, releaseBranch, clickOutsideEffs,
            CursorState.clearDblClick,
            hb, hd, hpl, hpr, hpm, hrl, hpick, hdc, hdbl, hhov, hne1, hne2] <;>
          simp [dblCheck]
      | some m =>
        refine ⟨?_, ?_, ?_, fun t => ?_⟩ <;>
          simp [mouseButtonInput, releaseBranch, clickOutsideEffs,
            CursorState.clearDblClick,
            hb, hd, hpl, hpr, hpm, hrl, hpick, hdc, hdbl, hhov, hne1, hne2] <;>
          simp [dblCheck]
    · intro hdbl
      cases hhov : pickBy nodes EventFlags.Hover (fun m => m.hitbox.contains pos) with
      | none =>
        refine ⟨?_, ?_⟩ <;>
          simp [mouseButtonInput, releaseBranch, clickOutsideEffs,
            hb, hd, hpl, hpr, hpm, hrl, hpick, hdc, hdbl, hhov, hne1, hne2]
      | some m =>
        refine ⟨?_, ?_⟩ <;>
          simp [mouseButtonInput, releaseBranch, clickOutsideEffs,
            hb, hd, hpl, hpr, hpm, hrl, hpick, hdc, hdbl, hhov, hne1, hne2]
  · intro hd ht he hp hddc
    constructor
    · intro hdbl
      cases hdrop : pickBy nodes EventFlags.Drop (fun m => m.hitbox.contains pos) with
      | none =>
        refine ⟨?_, ?_, ?_⟩ <;>
          simp [mouseButtonInput, dragBranch, dragTargetOf, clickOutsideEffs,
            CursorState.clearDblClick,
            hb, hd, ht, he, hp, hddc, hdbl, hdrop, hne3, hne4, hne5, hne6, hne8, hne9]
      | some m =>
        refine ⟨?_, ?_, ?_⟩ <;>
          simp [mouseButtonInput, dragBranch, dragTargetOf, clickOutsideEffs,
            CursorState.clearDblClick,
            hb, hd, ht, he, hp, hddc, hdbl, hdrop, hne3, hne4, hne5, hne6, hne8, hne9]
    · intro hdbl
      cases hdrop : pickBy nodes EventFlags.Drop (fun m => m.hitbox.contains pos) with
      | none =>
        refine ⟨?_, ?_⟩ <;>
          simp [mouseButtonInput, dragBranch, dragTargetOf, clickOutsideEffs,
            hb, hd, ht, he, hp, hddc, hdbl, hdrop, hne3, hne4, hne5, hne6, hne8, hne9]
      | some m =>
        refine ⟨?_, ?_⟩ <;>
          simp [mouseButtonInput, dragBranch, dragTargetOf, clickOutsideEffs,
            hb, hd, ht, he, hp, hddc, hdbl, hdrop, hne3, hne4, hne5, hne6, hne8, hne9]

/-- Witness for C7: releasing the left button at time 1 with previous
down timestamp 1 (within the threshold 1) over the double-click node
produces the `DoubleClick` action and clears the buffer. -/
theorem double_click_promotion_witness :
    Eff.action 4 EventFlags.DoubleClick
      ∈ (mouseButtonInput releaseState 1 1 leftReleasedButtons (some ⟨0, 0⟩)
          allExist [clickNode]).2 ∧
    (mouseButtonInput releaseState 1 1 leftReleasedButtons (some ⟨0, 0⟩)
        allExist [clickNode]).1.lastLmbDownTime = (none, none) :=
  have h := ((double_click_promotion releaseState 1 1 leftReleasedButtons ⟨0, 0⟩
      allExist [clickNode] clickNode 0 rfl).1
    rfl rfl rfl rfl rfl (by decide) (by decide)).1
    (by norm_num [dblCheck, releaseState, baseState])
  ⟨h.1, h.2.2.1⟩

/-- C8: on drag-end, every active `ClickOutside`-flagged node other than
the dragged entity whose hitbox does not contain the release point
receives the one-frame `CursorClickOutside` marker and the dragged entity
never does; on a plain left-click release, every active
`ClickOutside`-flagged node whose hitbox does not contain the release
point receives the marker, and the clicked node (whose hitbox contains
the release point) never receives its own. -/
theorem click_outside_exclusion (state : CursorState) (now threshold : ℚ)
    (buttons : Buttons) (pos : Vec2) (entityExists : Nat → Bool)
    (nodes : List CNode) (e : Nat) (n : CNode) (hb : state.blocked = false) :
    (state.dragging = true → state.dragTarget = some e → entityExists e = true →
     buttons.pressed state.dragButton = false →
     (∀ m ∈ nodes, m.active = true →
        EventFlags.intersects m.flags EventFlags.ClickOutside = true →
        m.hitbox.contains pos = false → m.entity ≠ e →
        Eff.clickOutside m.entity
          ∈ (mouseButtonInput state now threshold buttons (some pos) entityExists nodes).2) ∧
     Eff.clickOutside e
       ∉ (mouseButtonInput state now threshold buttons (some pos) entityExists nodes).2) ∧
    (state.dragging = false →
     buttons.pressed MouseButton.left = false →
     buttons.pressed MouseButton.right = false →
     buttons.pressed MouseButton.middle = false →
     buttons.justReleased MouseButton.left = true →
     pickBy nodes EventFlags.LeftClick
       (fun m => m.hitbox.contains pos && m.hitbox.contains state.downPos) = some n →
     (∀ m' ∈ nodes, m'.entity = n.entity → m' = n) →
     (∀ m ∈ nodes, m.active = true →
        EventFlags.intersects m.flags EventFlags.ClickOutside = true →
        m.hitbox.contains pos = false →
        Eff.clickOutside m.entity
          ∈ (mouseButtonInput state now threshold buttons (some pos) entityExists nodes).2) ∧
     Eff.clickOutside n.entity
       ∉ (mouseButtonInput state now threshold buttons (some pos) entityExists nodes).2) := by
  constructor
  · intro hd ht he hp
    constructor
    · intro m hm hma hmf hmh hne
      by_cases hc : (state.dragDblClick && dblCheck now state.lastLmbDownTime.1 threshold) = true
      all_goals cases hdrop : pickBy nodes EventFlags.Drop (fun x => x.hitbox.contains pos) with
      | none =>
        simp [mouseButtonInput, dragBranch, dragTargetOf, clickOutsideEffs, iterFlags,
          hb, hd, ht, he, hp, hc, hdrop]
        exact ⟨m, ⟨hm, ⟨hne, hmh⟩, hma, hmf⟩, rfl⟩
      | some md =>
        simp [mouseButtonInput, dragBranch, dragTargetOf, clickOutsideEffs, iterFlags,
          hb, hd, ht, he, hp, hc, hdrop]
        exact ⟨m, ⟨hm, ⟨hne, hmh⟩, hma, hmf⟩, rfl⟩
    · intro habs
      by_cases hc : (state.dragDblClick && dblCheck now state.lastLmbDownTime.1 threshold) = true
      all_goals cases hdrop : pickBy nodes EventFlags.Drop (fun x => x.hitbox.contains pos) with
      | none =>
        simp [mouseButtonInput, dragBranch, dragTargetOf, clickOutsideEffs, iterFlags,
          hb, hd, ht, he, hp, hc, hdrop] at habs
        obtain ⟨a, ⟨_, ⟨hane, _⟩, _⟩, hae⟩ := habs
        exact hane hae
      | some md =>
        simp [mouseButtonInput, dragBranch, dragTargetOf, clickOutsideEffs, iterFlags,
          hb, hd, ht, he, hp, hc, hdrop] at habs
        obtain ⟨a, ⟨_, ⟨hane, _⟩, _⟩, hae⟩ := habs
        exact hane hae
  · intro hd hpl hpr hpm hrl hpick huniq
    have hnmem := pickBy_mem nodes EventFlags.LeftClick _ n hpick
    have hnpos : n.hitbox.contains pos = true := by
      have := hnmem.2.2.2
      simp only [Bool.and_eq_true] at this
      exact this.1
    constructor
    · intro m hm hma hmf hmh
      by_cases hc : (EventFlags.contains n.flags EventFlags.DoubleClick &&
        dblCheck now state.lastLmbDownTime.1 threshold) = true
      all_goals cases hhov : pickBy nodes EventFlags.Hover (fun x => x.hitbox.contains pos) with
      | none =>
        simp [mouseButtonInput, releaseBranch, clickOutsideEffs, iterFlags,
          CursorState.clearDblClick, hb, hd, hpl, hpr, hpm, hrl, hpick, hc, hhov]
        exact ⟨m, ⟨hm, hmh, hma, hmf⟩, rfl⟩
      | some mh =>
        simp [mouseButtonInput, releaseBranch, clickOutsideEffs, iterFlags,
          CursorState.clearDblClick, hb, hd, hpl, hpr, hpm, hrl, hpick, hc, hhov]
        exact ⟨m, ⟨hm, hmh, hma, hmf⟩, rfl⟩
    · intro habs
      by_cases hc : (EventFlags.contains n.flags EventFlags.DoubleClick &&
        dblCheck now state.lastLmbDownTime.1 threshold) = true
      all_goals cases hhov : pickBy nodes EventFlags.Hover (fun x => x.hitbox.contains pos) with
      | none =>
        simp [mouseButtonInput, releaseBranch, clickOutsideEffs, iterFlags,
          CursorState.clearDblClick, hb, hd, hpl, hpr, hpm, hrl, hpick, hc, hhov] at habs
        obtain ⟨x, ⟨hx, hxpos, _, _⟩, hxe⟩ := habs
        rw [huniq x hx hxe, hnpos] at hxpos
        simp at hxpos
      | some mh =>
        simp [mouseButtonInput, releaseBranch, clickOutsideEffs, iterFlags,
          CursorState.clearDblClick, hb, hd, hpl, hpr, hpm, hrl, hpick, hc, hhov] at habs
        obtain ⟨x, ⟨hx, hxpos, _, _⟩, hxe⟩ := habs
        rw [huniq x hx hxe, hnpos] at hxpos
        simp at hxpos

/-- Witness for C8: ending a drag on entity 7 with the pointer at the
origin gives the far-away `ClickOutside` node (entity 3) its marker while
entity 7 receives none. -/
theorem click_outside_exclusion_witness :
    Eff.clickOutside 3
      ∈ (mouseButtonInput dragState 1 1 noButtons (some ⟨0, 0⟩) allExist [outsideNode]).2 ∧
    Eff.clickOutside 7
      ∉ (mouseButtonInput dragState 1 1 noButtons (some ⟨0, 0⟩) allExist [outsideNode]).2 :=
  have h := (click_outside_exclusion dragState 1 1 noButtons ⟨0, 0⟩ allExist
      [outsideNode] 7 nodeA rfl).1 rfl rfl rfl rfl
  ⟨h.1 outsideNode (by decide) rfl (by decide) (by decide) (by decide), h.2⟩

end Rectray
